import Mathlib

/-!
Shallow embedding of the `trade_tcl` engine in `src/pybybit.py` (and its
invocation from `src/main.py`), for checking the natural-language
specification against the code.

Modelling conventions:
* Per-account mutable state (the entries of `results`, `orderlinkid_to_limit`,
  `pending_orderlinks`, `processed_fills`, `active_position_flag` and
  `final_summary[acc]`) is gathered into one `AccountState` record.
  Python sets are modelled as lists with set operations (`add` = append,
  `discard` = filter-out); insertion order is irrelevant to membership.
* Venue responses are oracles passed as arguments: `Option PyResp`, where
  `none` models the request raising an exception, `PyResp.dict c` a parsed
  JSON dict whose top-level `retCode` field is `c` (absent when `c = none`),
  and `PyResp.nonDict` any non-dict value.
* Wall-clock values (`time.time()`) and position sizes are rationals.
* Each worker-loop body is embedded as a step function from state and oracles
  to the new state plus the list of venue requests it issues; the code's
  lock-protected mutations are the atomic state updates of the step.
-/

namespace TradeTcl

/-- A venue response as seen by the Python code after `resp.json()` /
`rate_limited_request`: a dict with an optional top-level `retCode`, or a
non-dict value. -/
inductive PyResp where
  | dict (retCode : Option Int)
  | nonDict
deriving Repr, DecidableEq

/-- The venue calls the modelled fragments of `trade_tcl` can issue. -/
inductive Request where
  | cancelOrder (symbol link : String)
  | setTradingStop (symbol tp sl : String)
  | getPositions
  | marketClose (symbol side : String) (qty : ℚ)
deriving Repr, DecidableEq

/-- Per-account, per-run state of `trade_tcl`:
`placed` is the list of orderLinkIds in `results[acc]`; `linkToTier` is
`orderlinkid_to_limit[acc]`; `pending` is `pending_orderlinks[acc]`;
`processedFills` is `processed_fills[acc]`; `positionArmed` is
`active_position_flag[acc]`; the remaining fields are
`final_summary[acc]`. -/
structure AccountState where
  placed : List String
  linkToTier : List (String × Nat)
  pending : List String
  processedFills : List String
  filled : List String
  canceled : List String
  positionArmed : Bool
  timeout : Bool
  done : Bool
  userCancel : Bool
deriving Repr, DecidableEq

/-- The fresh state built at run start: empty lists, all flags false
(`final_summary` initialisation plus the empty per-account maps). -/
def initialAccountState : AccountState :=
  { placed := [], linkToTier := [], pending := [], processedFills := []
    filled := [], canceled := [], positionArmed := false
    timeout := false, done := false, userCancel := false }

/-- `orderlinkid_to_limit.get(account_name, {}).get(order_link_id)`. -/
def lookupTier (m : List (String × Nat)) (link : String) : Option Nat :=
  (m.find? (fun kv => kv.1 = link)).map (fun kv => kv.2)

/-- `code in (0, 34040)` in the TP/SL worker, where `code` is the `retCode`
of the response when it is a dict and `None` otherwise. -/
def isTpslSuccess : PyResp → Bool
  | PyResp.dict (some c) => c = 0 || c = 34040
  | PyResp.dict none => false
  | PyResp.nonDict => false

/-- One iteration of `tpsl_worker` handling a dequeued fill event
`(account_name, order_link_id)`.  `tpTable i` / `slTable i` are
`tpsl_dict.get(f"tp{i}")` / `tpsl_dict.get(f"sl{i}")`, already rendered by
`str(...)`; `resp` is the outcome of the `set_trading_stop` request
(`none` = the call raised).  Returns the new account state and the requests
issued.  The lock-protected dedup check and insertion happen first; the
insertion precedes the tier lookup, so unknown ids are also marked
processed. -/
def tpslWorkerStep (symbol : String) (tpTable slTable : Nat → Option String)
    (resp : Option PyResp) (st : AccountState) (link : String) :
    AccountState × List Request :=
  if link ∈ st.processedFills then (st, [])
  else
    let st1 := { st with processedFills := st.processedFills ++ [link] }
    match lookupTier st1.linkToTier link with
    | none => (st1, [])
    | some i =>
      match tpTable i, slTable i with
      | some tp, some sl =>
        let req := Request.setTradingStop symbol tp sl
        match resp with
        | none => (st1, [req])
        | some r =>
          if isTpslSuccess r then
            ({ st1 with filled := st1.filled ++ ["Limit" ++ toString i]
                        positionArmed := true }, [req])
          else (st1, [req])
      | _, _ => (st1, [])

/-- The TP/SL worker consuming a queue of fill events for one account, each
paired with the oracle for its `set_trading_stop` outcome. -/
def tpslWorkerRun (symbol : String) (tpTable slTable : Nat → Option String)
    (st : AccountState) :
    List (String × Option PyResp) → AccountState × List Request
  | [] => (st, [])
  | (link, o) :: evs =>
    let p := tpslWorkerStep symbol tpTable slTable o st link
    let q := tpslWorkerRun symbol tpTable slTable p.1 evs
    (q.1, p.2 ++ q.2)

/-- Number of `set_trading_stop` requests in a request list. -/
def countTradingStop (rs : List Request) : Nat :=
  (rs.filter (fun r => match r with
    | Request.setTradingStop _ _ _ => true
    | _ => false)).length

/-! ## Position monitor (`position_monitor`) -/

/-- The `"size"` field of the first entry of the positions list: absent
(`positions[0].get("size", 0)` yields `0`), present but not parsable by
`float(...)` (the inner `except` sets `size = 0.0`), or a parsed value. -/
inductive SizeField where
  | absent
  | unparsable
  | val (q : ℚ)
deriving Repr, DecidableEq

/-- One entry of `pos_resp["result"]["list"]`, with the fields the code
reads: `size` and `side`. -/
structure PosEntry where
  size : SizeField
  side : String
deriving Repr, DecidableEq

/-- The outcome of a `get_positions` call: the request raised, or returned a
(normalised) positions list. -/
inductive PosFetch where
  | raises
  | ok (positions : List PosEntry)
deriving Repr, DecidableEq

/-- The `size` computed by `position_monitor`: `0.0` when the list is empty,
else `float(positions[0].get("size", 0))` with the `except` fallback
`size = 0.0`. -/
def parsedSize : List PosEntry → ℚ
  | [] => 0
  | p :: _ =>
    match p.size with
    | SizeField.absent => 0
    | SizeField.unparsable => 0
    | SizeField.val q => q

/-- The cancel loop of `position_monitor`'s close branch over the snapshot
`to_cancel`: each link gets a `cancel_order` request; when the request
returns (oracle `some _`) the link is appended to `canceled` and discarded
from `pending`; when it raises (`none`) neither update happens. -/
def monitorCancelLoop (symbol : String)
    (cancelOracle : String → Option PyResp)
    (st : AccountState) : List String → AccountState × List Request
  | [] => (st, [])
  | link :: rest =>
    let st1 :=
      match cancelOracle link with
      | some _ =>
        { st with canceled := st.canceled ++ [link]
                  pending := st.pending.filter (fun l => l ≠ link) }
      | none => st
    let p := monitorCancelLoop symbol cancelOracle st1 rest
    (p.1, Request.cancelOrder symbol link :: p.2)

/-- One iteration of the `position_monitor` loop body for one account.
`waited` is the local `waited_for_position`; `fetch` is the outcome of the
`get_positions` call.  Returns (new state, new `waited`, whether the thread
returned, requests issued).  When `active_position_flag` is unset the body
sleeps and continues without a venue call.  A raising fetch is caught and
the loop retries.  Otherwise the parsed size drives the appear/close state
machine; on close the pending snapshot is cancelled and
`active_position_flag` is cleared. -/
def positionMonitorTick (symbol : String) (fetch : PosFetch)
    (cancelOracle : String → Option PyResp) (st : AccountState)
    (waited : Bool) : AccountState × Bool × Bool × List Request :=
  if !st.positionArmed then (st, waited, false, [])
  else
    match fetch with
    | PosFetch.raises => (st, waited, false, [Request.getPositions])
    | PosFetch.ok positions =>
      let size := parsedSize positions
      if !waited then
        if size > 0 then (st, true, false, [Request.getPositions])
        else (st, false, false, [Request.getPositions])
      else
        if size = 0 then
          let p := monitorCancelLoop symbol cancelOracle st st.pending
          ({ p.1 with positionArmed := false }, waited, true,
            Request.getPositions :: p.2)
        else (st, waited, false, [Request.getPositions])

/-! ## Controller loop branches (`trade_tcl` main loop) -/

/-- The shared cancel loop of the controller's user-cancel and timeout
branches over `to_cancel` (the orderLinkIds of `results[acc]`): each link
gets a `cancel_order` request; when it returns without raising the link is
appended to `canceled`; a raising request is caught and skipped.  Unlike
the monitor's close branch, `pending` is not touched. -/
def cancelLinksLoop (symbol : String)
    (cancelOracle : String → Option PyResp)
    (st : AccountState) : List String → AccountState × List Request
  | [] => (st, [])
  | link :: rest =>
    let st1 :=
      match cancelOracle link with
      | some _ => { st with canceled := st.canceled ++ [link] }
      | none => st
    let p := cancelLinksLoop symbol cancelOracle st1 rest
    (p.1, Request.cancelOrder symbol link :: p.2)

/-- The market-close loop of the user-cancel branch over the positions list:
`size = float(p.get("size", 0))` is not guarded by an inner `try`, so an
unparsable size raises and aborts the remaining closes (caught by the
branch's outer `except`); an absent size reads as `0`; a positive size
issues a reduce-only market order of the opposite side. -/
def marketCloses (symbol : String) : List PosEntry → List Request
  | [] => []
  | p :: rest =>
    match p.size with
    | SizeField.unparsable => []
    | SizeField.absent => marketCloses symbol rest
    | SizeField.val q =>
      (if q > 0 then
        [Request.marketClose symbol (if p.side = "Buy" then "Sell" else "Buy") q]
      else []) ++ marketCloses symbol rest

/-- The controller's user-cancel branch for one account: cancel every id in
`results[acc]`, then read positions (`posFetch`; a raise is caught after the
cancels) and market-close every position with positive size; finally set
`user_cancel` and `done`.  `pending` and `active_position_flag` are not
modified. -/
def userCancelBranch (symbol : String) (cancelOracle : String → Option PyResp)
    (posFetch : PosFetch) (st : AccountState) : AccountState × List Request :=
  let p := cancelLinksLoop symbol cancelOracle st st.placed
  let closeReqs :=
    match posFetch with
    | PosFetch.raises => []
    | PosFetch.ok positions => marketCloses symbol positions
  ({ p.1 with userCancel := true, done := true },
    p.2 ++ [Request.getPositions] ++ closeReqs)

/-- The controller's timeout branch for one account: cancel every id in
`results[acc]`, then set `timeout` and `done`.  No position read, no market
close; `pending` and `active_position_flag` are not modified. -/
def timeoutBranch (symbol : String) (cancelOracle : String → Option PyResp)
    (st : AccountState) : AccountState × List Request :=
  let p := cancelLinksLoop symbol cancelOracle st st.placed
  ({ p.1 with timeout := true, done := true }, p.2)

/-- The condition `order_timestamps.get(acc) and now - order_timestamps[acc]
> max_wait_seconds` of the controller loop.  `hasTs` models truthiness of
the stored timestamp. -/
def timeoutCond (hasTs : Bool) (now ts maxWait : ℚ) : Bool :=
  hasTs && decide (now - ts > maxWait)

/-- One pass of the controller loop over a single account: skip if `done`;
else the user-cancel branch if `cancel_requested`, else the timeout branch
if the timeout condition holds, else mark `done` exactly when `pending` is
empty and `active_position_flag` is unset (otherwise leave the account
untouched and keep waiting). -/
def controllerExamineAccount (symbol : String) (cancelFlag : Bool)
    (hasTs : Bool) (now ts maxWait : ℚ)
    (cancelOracle : String → Option PyResp) (posFetch : PosFetch)
    (st : AccountState) : AccountState × List Request :=
  if st.done then (st, [])
  else if cancelFlag then userCancelBranch symbol cancelOracle posFetch st
  else if timeoutCond hasTs now ts maxWait then
    timeoutBranch symbol cancelOracle st
  else if st.pending.isEmpty && !st.positionArmed then
    ({ st with done := true }, [])
  else (st, [])

/-! ## Signer / transport (`_make_signature`, `signed_post`)

Every request body built by this engine is a flat JSON object whose values
are strings, the integer `0` (`positionIdx`) or the boolean `True`
(`reduceOnly`), so the embedding of `json.dumps(body, separators=(",",":"))`
works on flat objects over these value kinds. -/

/-- A JSON value occurring in this engine's request bodies. -/
inductive JVal where
  | str (s : String)
  | int (n : Int)
  | bool (b : Bool)
deriving Repr, DecidableEq

/-- Lowercase hexadecimal digit of `n < 16`. -/
def hexDigitChar (n : Nat) : Char :=
  if n < 10 then Char.ofNat (48 + n) else Char.ofNat (87 + n)

/-- Four-digit lowercase hex rendering of `n < 0x10000` (for `\uXXXX`). -/
def hex4 (n : Nat) : String :=
  String.mk [hexDigitChar (n / 4096 % 16), hexDigitChar (n / 256 % 16),
             hexDigitChar (n / 16 % 16), hexDigitChar (n % 16)]

/-- `json.dumps` escaping of one character with the default
`ensure_ascii=True`: backslash, quote and the named control escapes; other
characters outside printable ASCII become `\uXXXX` (a surrogate pair above
the BMP); printable ASCII passes through. -/
def escapeChar (c : Char) : String :=
  if c = '\\' then "\\\\"
  else if c = '"' then "\\\""
  else if c = '\n' then "\\n"
  else if c = '\r' then "\\r"
  else if c = '\t' then "\\t"
  else if c.toNat = 8 then "\\b"
  else if c.toNat = 12 then "\\f"
  else if 32 ≤ c.toNat && c.toNat ≤ 126 then String.mk [c]
  else if c.toNat < 65536 then "\\u" ++ hex4 c.toNat
  else
    "\\u" ++ hex4 (55296 + (c.toNat - 65536) / 1024) ++
    "\\u" ++ hex4 (56320 + (c.toNat - 65536) % 1024)

/-- A JSON string literal as `json.dumps` renders it. -/
def dumpString (s : String) : String :=
  "\"" ++ String.join (s.toList.map escapeChar) ++ "\""

/-- One JSON scalar as `json.dumps` renders it. -/
def dumpJVal : JVal → String
  | JVal.str s => dumpString s
  | JVal.int n => toString n
  | JVal.bool b => if b then "true" else "false"

/-- `json.dumps(body, separators=(",", ":"))` on a flat object: item
separator `","`, key separator `":"`, no whitespace. -/
def jsonDumps (body : List (String × JVal)) : String :=
  "\x7b" ++
    String.intercalate ","
      (body.map (fun kv => dumpString kv.1 ++ ":" ++ dumpJVal kv.2)) ++
  "\x7d"

/-- UTF-8 bytes of a string (`s.encode("utf-8")`). -/
def strBytes (s : String) : List Nat :=
  s.toUTF8.toList.map (fun b => b.toNat)

/-- `hexdigest()` of a byte sequence: two lowercase hex digits per byte. -/
def hexdigest (digest : List (Fin 256)) : String :=
  String.mk ((digest.map
    (fun b => [hexDigitChar (b.val / 16), hexDigitChar (b.val % 16)])).flatten)

/-- `_make_signature`: HMAC-SHA256 under `api_secret` of the f-string
payload `f"{timestamp_ms}{api_key}{recv_window}{body_json}"`, rendered by
`hexdigest()`.  The HMAC-SHA256 primitive itself (`hmac.new(...).digest()`)
is the library function, taken as a parameter mapping (key bytes, message
bytes) to the 32 digest bytes. -/
def makeSignature (hmacSha256 : List Nat → List Nat → List (Fin 256))
    (apiKey apiSecret recvWindow timestampMs bodyJson : String) : String :=
  hexdigest (hmacSha256 (strBytes apiSecret)
    (strBytes (timestampMs ++ apiKey ++ recvWindow ++ bodyJson)))

/-- The HTTPS POST assembled by `signed_post`. -/
structure SignedRequest where
  url : String
  headers : List (String × String)
  body : String
deriving Repr, DecidableEq

/-- `signed_post`: serialize the body compactly, sign
timestamp ∥ api_key ∥ recv_window ∥ body_json, and send the very
`body_json` string as the request data with the Bybit v5 headers.
`timestampMs` is `int(time.time() * 1000)` under the run's time patch. -/
def signedPost (hmacSha256 : List Nat → List Nat → List (Fin 256))
    (baseUrl apiKey apiSecret path : String) (body : List (String × JVal))
    (recvWindowMs : Nat) (timestampMs : Nat) : SignedRequest :=
  let timestamp := toString timestampMs
  let bodyJson := jsonDumps body
  let sign := makeSignature hmacSha256 apiKey apiSecret
    (toString recvWindowMs) timestamp bodyJson
  { url := baseUrl.dropRightWhile (fun c => c = '/') ++ path
    headers :=
      [("X-BAPI-API-KEY", apiKey),
       ("X-BAPI-SIGN", sign),
       ("X-BAPI-SIGN-TYPE", "2"),
       ("X-BAPI-TIMESTAMP", timestamp),
       ("X-BAPI-RECV-WINDOW", toString recvWindowMs),
       ("Content-Type", "application/json")]
    body := bodyJson }

/-- A character of a lowercase hexadecimal rendering. -/
def isLowerHexChar (c : Char) : Bool :=
  "0123456789abcdef".toList.contains c

/-! ## The trigger call in `main.py` (Python argument binding)

`main` invokes `pb.trade_tcl(key_dict, dict_a, dict_b, demotrading=True,
max_wait_seconds=max_wait)`; `trade_tcl` is declared as
`def trade_tcl(keys_dict, order_dict, tpsl_dict, demo=True,
max_wait_seconds=300)`.  The fragment below embeds CPython's binding of
positional and keyword arguments to such a parameter list (no `*args` /
`**kwargs`): the body of the callee runs only when binding succeeds. -/

/-- Keyword-argument binding: each keyword must name a declared parameter
(else `TypeError: got an unexpected keyword argument`) and must not already
be bound (else `TypeError: got multiple values`). -/
def bindKeywords (params : List String) (bound : List String) :
    List String → Except String (List String)
  | [] => Except.ok bound
  | k :: ks =>
    if !params.contains k then
      Except.error ("got an unexpected keyword argument " ++ k)
    else if bound.contains k then
      Except.error ("got multiple values for argument " ++ k)
    else bindKeywords params (bound ++ [k]) ks

/-- Binding of a call with `nPositional` positional arguments and the given
keyword names against `params` with defaults on `hasDefault` parameters:
positional arguments fill the leading parameters, keywords are bound by
name, and every parameter left unbound must have a default. -/
def pyBindArgs (params : List String) (hasDefault : String → Bool)
    (nPositional : Nat) (kwargs : List String) :
    Except String (List String) :=
  if params.length < nPositional then
    Except.error "too many positional arguments"
  else
    match bindKeywords params (params.take nPositional) kwargs with
    | Except.error e => Except.error e
    | Except.ok bound =>
      if (params.filter
            (fun p => !bound.contains p && !hasDefault p)).isEmpty then
        Except.ok bound
      else
        Except.error "missing required arguments"

/-- The parameter list of `trade_tcl` in `src/pybybit.py`. -/
def tradeTclParams : List String :=
  ["keys_dict", "order_dict", "tpsl_dict", "demo", "max_wait_seconds"]

/-- The parameters of `trade_tcl` that carry defaults. -/
def tradeTclHasDefault (p : String) : Bool :=
  p = "demo" || p = "max_wait_seconds"

/-- The trigger callback's call of `trade_tcl` in `src/main.py`: three
positional arguments and the keywords `demotrading`, `max_wait_seconds`.
If binding succeeds the engine body runs and issues its requests
(abstracted as `engine`); if binding fails, Python raises `TypeError`
before the body — so before any order is placed. -/
def mainTriggerInvocation (engine : Unit → List Request) :
    Except String (List Request) :=
  match pyBindArgs tradeTclParams tradeTclHasDefault 3
      ["demotrading", "max_wait_seconds"] with
  | Except.error e => Except.error e
  | Except.ok _ => Except.ok (engine ())

/-! ## Helper lemmas -/

theorem countTradingStop_append (a b : List Request) :
    countTradingStop (a ++ b) = countTradingStop a + countTradingStop b := by
  simp [countTradingStop, List.filter_append]

theorem tpslWorkerStep_of_mem (symbol : String)
    (tpTable slTable : Nat → Option String) (resp : Option PyResp)
    (st : AccountState) (link : String) (h : link ∈ st.processedFills) :
    tpslWorkerStep symbol tpTable slTable resp st link = (st, []) := by
  simp [tpslWorkerStep, h]

theorem tpslWorkerStep_mem_processedFills (symbol : String)
    (tpTable slTable : Nat → Option String) (resp : Option PyResp)
    (st : AccountState) (link : String) :
    link ∈ (tpslWorkerStep symbol tpTable slTable resp st link).1.processedFills := by
  by_cases h : link ∈ st.processedFills
  · rw [tpslWorkerStep_of_mem symbol tpTable slTable resp st link h]
    exact h
  · unfold tpslWorkerStep
    rw [if_neg h]
    rcases hlt : lookupTier st.linkToTier link with _ | i
    · simp [hlt]
    · rcases htp : tpTable i with _ | tp <;> rcases hsl : slTable i with _ | sl <;>
        rcases resp with _ | r <;> simp [hlt, htp, hsl] <;>
        (try split) <;> (try simp)

theorem countTradingStop_tpslWorkerStep_le (symbol : String)
    (tpTable slTable : Nat → Option String) (resp : Option PyResp)
    (st : AccountState) (link : String) :
    countTradingStop (tpslWorkerStep symbol tpTable slTable resp st link).2 ≤ 1 := by
  unfold tpslWorkerStep
  split
  · simp [countTradingStop]
  · rcases hlt : lookupTier st.linkToTier link with _ | i
    · simp [hlt, countTradingStop]
    · rcases htp : tpTable i with _ | tp <;> rcases hsl : slTable i with _ | sl <;>
        rcases resp with _ | r <;> simp [hlt, htp, hsl, countTradingStop] <;>
        (try split) <;> (try simp [countTradingStop])

theorem tpslWorkerRun_of_mem (symbol : String)
    (tpTable slTable : Nat → Option String) (link : String) :
    ∀ (evs : List (String × Option PyResp)) (st : AccountState),
      link ∈ st.processedFills → (∀ e ∈ evs, e.1 = link) →
      tpslWorkerRun symbol tpTable slTable st evs = (st, []) := by
  intro evs
  induction evs with
  | nil => intro st _ _; rfl
  | cons e rest ih =>
    intro st h hevs
    obtain ⟨l, o⟩ := e
    have hl : link = l := (hevs (l, o) (by simp)).symm
    subst hl
    simp only [tpslWorkerRun]
    rw [tpslWorkerStep_of_mem symbol tpTable slTable o st link h]
    rw [ih st h (fun e he => hevs e (List.mem_cons_of_mem _ he))]
    rfl

theorem cancelLinksLoop_eq (symbol : String) (o : String → Option PyResp) :
    ∀ (links : List String) (st : AccountState),
      cancelLinksLoop symbol o st links =
        ({ st with canceled :=
            st.canceled ++ links.filter (fun l => (o l).isSome) },
         links.map (Request.cancelOrder symbol)) := by
  intro links
  induction links with
  | nil => intro st; simp [cancelLinksLoop]
  | cons link rest ih =>
    intro st
    simp only [cancelLinksLoop]
    cases ho : o link with
    | some r => rw [ih]; simp [List.filter_cons, ho, List.append_assoc]
    | none => rw [ih]; simp [List.filter_cons, ho]

theorem monitorCancelLoop_canceled (symbol : String)
    (o : String → Option PyResp) :
    ∀ (links : List String) (st : AccountState),
      (monitorCancelLoop symbol o st links).1.canceled =
        st.canceled ++ links.filter (fun l => (o l).isSome) := by
  intro links
  induction links with
  | nil => intro st; simp [monitorCancelLoop]
  | cons link rest ih =>
    intro st
    simp only [monitorCancelLoop]
    cases ho : o link with
    | some r => rw [ih]; simp [List.filter_cons, ho, List.append_assoc]
    | none => rw [ih]; simp [List.filter_cons, ho]

theorem positionMonitorTick_close (symbol : String)
    (o : String → Option PyResp) (st : AccountState) (ps : List PosEntry)
    (harmed : st.positionArmed = true) (hsize : parsedSize ps = 0) :
    positionMonitorTick symbol (PosFetch.ok ps) o st true =
      ({ (monitorCancelLoop symbol o st st.pending).1 with
          positionArmed := false }, true, true,
       Request.getPositions :: (monitorCancelLoop symbol o st st.pending).2) := by
  unfold positionMonitorTick
  rw [harmed]
  simp [hsize]

/-! ## Claim theorems -/

/-- C1: even if the Fill Detector delivers multiple FillEvents for the same
(account, ClientOrderId) pair, the TP/SL worker issues at most one
set-trading-stop request for that id: it consults `processed_fills` under
the lock, drops already-present ids, and inserts the id before
proceeding. -/
theorem tpsl_worker_dedup_at_most_one_trading_stop (symbol : String)
    (tpTable slTable : Nat → Option String) (st : AccountState)
    (link : String) (evs : List (String × Option PyResp))
    (hevs : ∀ e ∈ evs, e.1 = link) :
    countTradingStop (tpslWorkerRun symbol tpTable slTable st evs).2 ≤ 1 := by
  cases evs with
  | nil => simp [tpslWorkerRun, countTradingStop]
  | cons e rest =>
    obtain ⟨l, o⟩ := e
    have hl : link = l := (hevs (l, o) (by simp)).symm
    subst hl
    by_cases h : link ∈ st.processedFills
    · rw [tpslWorkerRun_of_mem symbol tpTable slTable link _ st h hevs]
      simp [countTradingStop]
    · simp only [tpslWorkerRun]
      rw [tpslWorkerRun_of_mem symbol tpTable slTable link rest
            (tpslWorkerStep symbol tpTable slTable o st link).1
            (tpslWorkerStep_mem_processedFills symbol tpTable slTable o st link)
            (fun e he => hevs e (List.mem_cons_of_mem _ he))]
      rw [countTradingStop_append]
      simpa [countTradingStop] using
        countTradingStop_tpslWorkerStep_le symbol tpTable slTable o st link

/-- Witness for C1: two deliveries of the same fill event produce exactly
one set-trading-stop request (and at most one, by the theorem). -/
theorem tpsl_worker_dedup_at_most_one_trading_stop_witness :
    countTradingStop (tpslWorkerRun "BTCUSDT"
      (fun i => if i = 1 then some "31000" else none)
      (fun i => if i = 1 then some "29000" else none)
      { initialAccountState with linkToTier := [("l1", 1)] }
      [("l1", some (PyResp.dict (some 0))),
       ("l1", some (PyResp.dict (some 0)))]).2 ≤ 1 :=
  tpsl_worker_dedup_at_most_one_trading_stop "BTCUSDT"
    (fun i => if i = 1 then some "31000" else none)
    (fun i => if i = 1 then some "29000" else none)
    { initialAccountState with linkToTier := [("l1", 1)] } "l1"
    [("l1", some (PyResp.dict (some 0))), ("l1", some (PyResp.dict (some 0)))]
    (by decide)

/-- C3: for a FillEvent that passes the dedup/lookup guards, a
set-trading-stop response with `retCode` 0 or 34040 appends `Limit<i>` to
`filled` and sets `active_position_flag`; any other response (non-dict,
missing `retCode`, or another code) leaves `filled` and the flag
unchanged. -/
theorem tpsl_worker_success_codes_record_fill (symbol : String)
    (tpTable slTable : Nat → Option String) (st : AccountState)
    (link : String) (i : Nat) (tp sl : String) (r : PyResp)
    (hmem : link ∉ st.processedFills)
    (hlt : lookupTier st.linkToTier link = some i)
    (htp : tpTable i = some tp) (hsl : slTable i = some sl) :
    (tpslWorkerStep symbol tpTable slTable (some r) st link).1.filled =
      (if isTpslSuccess r then st.filled ++ ["Limit" ++ toString i]
       else st.filled) ∧
    (tpslWorkerStep symbol tpTable slTable (some r) st link).1.positionArmed =
      (if isTpslSuccess r then true else st.positionArmed) ∧
    (tpslWorkerStep symbol tpTable slTable (some r) st link).2 =
      [Request.setTradingStop symbol tp sl] := by
  unfold tpslWorkerStep
  rw [if_neg hmem]
  simp only [hlt, htp, hsl]
  by_cases hs : isTpslSuccess r <;> simp [hs]

/-- Witness for C3 at `retCode = 34040`. -/
theorem tpsl_worker_success_codes_record_fill_witness :
    (tpslWorkerStep "BTCUSDT"
      (fun i => if i = 1 then some "31000" else none)
      (fun i => if i = 1 then some "29000" else none)
      (some (PyResp.dict (some 34040)))
      { initialAccountState with linkToTier := [("l1", 1)] } "l1").1.filled =
      (if isTpslSuccess (PyResp.dict (some 34040)) then
        ({ initialAccountState with
            linkToTier := [("l1", 1)] } : AccountState).filled ++ ["Limit" ++ toString 1]
       else ({ initialAccountState with
            linkToTier := [("l1", 1)] } : AccountState).filled) ∧
    (tpslWorkerStep "BTCUSDT"
      (fun i => if i = 1 then some "31000" else none)
      (fun i => if i = 1 then some "29000" else none)
      (some (PyResp.dict (some 34040)))
      { initialAccountState with linkToTier := [("l1", 1)] } "l1").1.positionArmed =
      (if isTpslSuccess (PyResp.dict (some 34040)) then true
       else ({ initialAccountState with
            linkToTier := [("l1", 1)] } : AccountState).positionArmed) ∧
    (tpslWorkerStep "BTCUSDT"
      (fun i => if i = 1 then some "31000" else none)
      (fun i => if i = 1 then some "29000" else none)
      (some (PyResp.dict (some 34040)))
      { initialAccountState with linkToTier := [("l1", 1)] } "l1").2 =
      [Request.setTradingStop "BTCUSDT" "31000" "29000"] :=
  tpsl_worker_success_codes_record_fill "BTCUSDT"
    (fun i => if i = 1 then some "31000" else none)
    (fun i => if i = 1 then some "29000" else none)
    { initialAccountState with linkToTier := [("l1", 1)] } "l1" 1
    "31000" "29000" (PyResp.dict (some 34040))
    (by decide) (by decide) (by decide) (by decide)

/-- C4: when the controller's timeout branch fires (the stored placement
timestamp is set and `now - placed_at > max_wait_seconds`, no user cancel,
account not done), it issues exactly one cancel request per id in `placed`
and nothing else — no position read, no market close — appends the
non-raising cancels to `canceled`, sets `timeout` and `done`, and leaves
every other field (`pending`, `positionArmed`, `filled`, ...) unchanged. -/
theorem controller_timeout_branch_cancels_only (symbol : String)
    (hasTs : Bool) (now ts maxWait : ℚ)
    (cancelOracle : String → Option PyResp) (posFetch : PosFetch)
    (st : AccountState) (hdone : st.done = false) (hts : hasTs = true)
    (hgt : now - ts > maxWait) :
    controllerExamineAccount symbol false hasTs now ts maxWait cancelOracle
        posFetch st =
      ({ st with
          canceled :=
            st.canceled ++ st.placed.filter (fun l => (cancelOracle l).isSome)
          timeout := true, done := true },
       st.placed.map (Request.cancelOrder symbol)) := by
  have htc : timeoutCond hasTs now ts maxWait = true := by
    simp [timeoutCond, hts, hgt]
  simp only [controllerExamineAccount, hdone, htc]
  simp only [timeoutBranch, cancelLinksLoop_eq]
  simp

/-- Witness for C4: a concrete timed-out account with one raising cancel. -/
theorem controller_timeout_branch_cancels_only_witness :
    controllerExamineAccount "BTCUSDT" false true 3 0 2
        (fun l => if l = "l2" then none else some (PyResp.dict (some 10001)))
        (PosFetch.ok [])
        { initialAccountState with
            placed := ["l1", "l2", "l3"], linkToTier := [("l1", 1)]
            pending := ["l2", "l3"], positionArmed := true } =
      ({ { initialAccountState with
            placed := ["l1", "l2", "l3"], linkToTier := [("l1", 1)]
            pending := ["l2", "l3"], positionArmed := true } with
          canceled :=
            ({ initialAccountState with
                placed := ["l1", "l2", "l3"], linkToTier := [("l1", 1)]
                pending := ["l2", "l3"],
                positionArmed := true } : AccountState).canceled ++
              (["l1", "l2", "l3"].filter (fun l =>
                ((fun l => if l = "l2" then none
                  else some (PyResp.dict (some 10001))) l).isSome))
          timeout := true, done := true },
       ["l1", "l2", "l3"].map (Request.cancelOrder "BTCUSDT")) :=
  controller_timeout_branch_cancels_only "BTCUSDT" true 3 0 2
    (fun l => if l = "l2" then none else some (PyResp.dict (some 10001)))
    (PosFetch.ok [])
    { initialAccountState with
        placed := ["l1", "l2", "l3"], linkToTier := [("l1", 1)]
        pending := ["l2", "l3"], positionArmed := true }
    (by decide) (by decide) (by norm_num)

/-- C9: in each of the three cancelling branches (position-monitor close,
controller timeout, controller user-cancel), a ClientOrderId whose cancel
request returns without raising is appended to `canceled` regardless of the
response's `retCode`: the response `r` here is arbitrary. -/
theorem cancel_branches_append_regardless_of_retCode (symbol : String)
    (o : String → Option PyResp) (posFetch : PosFetch)
    (ps : List PosEntry) (st : AccountState) (link : String) (r : PyResp)
    (ho : o link = some r) :
    (link ∈ st.placed → link ∈ (timeoutBranch symbol o st).1.canceled) ∧
    (link ∈ st.placed →
      link ∈ (userCancelBranch symbol o posFetch st).1.canceled) ∧
    (st.positionArmed = true → parsedSize ps = 0 → link ∈ st.pending →
      link ∈ (positionMonitorTick symbol (PosFetch.ok ps) o st
        true).1.canceled) := by
  have hmemf : link ∈ st.placed →
      link ∈ st.placed.filter (fun l => (o l).isSome) := by
    intro hp
    exact List.mem_filter.2 ⟨hp, by simp [ho]⟩
  refine ⟨?_, ?_, ?_⟩
  · intro hp
    simp only [timeoutBranch, cancelLinksLoop_eq]
    simpa using Or.inr (hmemf hp)
  · intro hp
    simp only [userCancelBranch, cancelLinksLoop_eq]
    simpa using Or.inr (hmemf hp)
  · intro harmed hsize hpend
    rw [positionMonitorTick_close symbol o st ps harmed hsize]
    show link ∈ (monitorCancelLoop symbol o st st.pending).1.canceled
    rw [monitorCancelLoop_canceled]
    exact List.mem_append_right _ (List.mem_filter.2 ⟨hpend, by simp [ho]⟩)

/-- Witness for C9: a venue-rejected cancel (`retCode = 110001`) still lands
in `canceled` on all three branches. -/
theorem cancel_branches_append_regardless_of_retCode_witness :
    ("l2" ∈ (["l1", "l2", "l3"] : List String) →
      "l2" ∈ (timeoutBranch "BTCUSDT"
        (fun _ => some (PyResp.dict (some 110001)))
        { initialAccountState with
            placed := ["l1", "l2", "l3"], pending := ["l2", "l3"]
            positionArmed := true }).1.canceled) ∧
    ("l2" ∈ (["l1", "l2", "l3"] : List String) →
      "l2" ∈ (userCancelBranch "BTCUSDT"
        (fun _ => some (PyResp.dict (some 110001))) (PosFetch.ok [])
        { initialAccountState with
            placed := ["l1", "l2", "l3"], pending := ["l2", "l3"]
            positionArmed := true }).1.canceled) ∧
    (({ initialAccountState with
          placed := ["l1", "l2", "l3"], pending := ["l2", "l3"]
          positionArmed := true } : AccountState).positionArmed = true →
      parsedSize [] = 0 →
      "l2" ∈ ({ initialAccountState with
          placed := ["l1", "l2", "l3"], pending := ["l2", "l3"]
          positionArmed := true } : AccountState).pending →
      "l2" ∈ (positionMonitorTick "BTCUSDT" (PosFetch.ok [])
        (fun _ => some (PyResp.dict (some 110001)))
        { initialAccountState with
            placed := ["l1", "l2", "l3"], pending := ["l2", "l3"]
            positionArmed := true } true).1.canceled) :=
  cancel_branches_append_regardless_of_retCode "BTCUSDT"
    (fun _ => some (PyResp.dict (some 110001))) (PosFetch.ok []) []
    { initialAccountState with
        placed := ["l1", "l2", "l3"], pending := ["l2", "l3"]
        positionArmed := true } "l2" (PyResp.dict (some 110001)) rfl

/-- A reachable per-account state used by concrete runs below: tier 1 filled
(its id removed from `pending`, TP/SL set, so the account is armed), tiers 2
and 3 still resting, nothing cancelled yet. -/
def armedRestingState : AccountState :=
  { initialAccountState with
      placed := ["l1", "l2", "l3"]
      linkToTier := [("l1", 1), ("l2", 2), ("l3", 3)]
      pending := ["l2", "l3"]
      filled := ["Limit1"]
      positionArmed := true }

/-- Counterexample to C2: the timeout branch (here `now = 3`, placement at
`ts = 0`, `max_wait_seconds = 2`) sets `done = true` but leaves both resting
ids in the pending set — it appends to `canceled` without discarding from
`pending_orderlinks`. -/
theorem timeout_done_keeps_pending_cex :
    ((controllerExamineAccount "BTCUSDT" false true 3 0 2
        (fun _ => some (PyResp.dict (some 0))) (PosFetch.ok [])
        armedRestingState).1.done = true) ∧
    ((controllerExamineAccount "BTCUSDT" false true 3 0 2
        (fun _ => some (PyResp.dict (some 0))) (PosFetch.ok [])
        armedRestingState).1.pending = ["l2", "l3"]) := by
  have htc : timeoutCond true 3 0 2 = true := by norm_num [timeoutCond]
  have h : controllerExamineAccount "BTCUSDT" false true 3 0 2
      (fun _ => some (PyResp.dict (some 0))) (PosFetch.ok [])
      armedRestingState =
      timeoutBranch "BTCUSDT" (fun _ => some (PyResp.dict (some 0)))
        armedRestingState := by
    simp [controllerExamineAccount, htc, armedRestingState,
      initialAccountState]
  rw [h]
  exact ⟨rfl, rfl⟩

/-- C2 (amended): `done = true` implies an empty pending set only for
accounts completed through the controller's normal branch; the timeout and
user-cancel branches set `done` while leaving `pending` exactly as it was
(possibly non-empty). -/
theorem controller_done_pending_amended (symbol : String) (hasTs : Bool)
    (now ts maxWait : ℚ) (o : String → Option PyResp) (pf : PosFetch)
    (st : AccountState) (hdone : st.done = false)
    (htc : timeoutCond hasTs now ts maxWait = false) :
    ((controllerExamineAccount symbol false hasTs now ts maxWait o pf
        st).1.done = true →
      st.pending = [] ∧
      (controllerExamineAccount symbol false hasTs now ts maxWait o pf
        st).1.pending = []) ∧
    ((timeoutBranch symbol o st).1.pending = st.pending) ∧
    ((userCancelBranch symbol o pf st).1.pending = st.pending) := by
  refine ⟨?_, ?_, ?_⟩
  · simp only [controllerExamineAccount, hdone, htc]
    by_cases hc : (st.pending.isEmpty && !st.positionArmed) = true
    · have hc' := hc
      rw [Bool.and_eq_true] at hc'
      have hemp : st.pending = [] := List.isEmpty_iff.1 hc'.1
      rw [if_pos hc]
      exact fun _ => ⟨hemp, hemp⟩
    · rw [if_neg hc]
      intro hd
      simp [hdone] at hd
  · simp only [timeoutBranch, cancelLinksLoop_eq]
  · simp only [userCancelBranch, cancelLinksLoop_eq]

/-- Witness for C2 (amended): a fresh account completing through the normal
branch. -/
theorem controller_done_pending_amended_witness :
    ((controllerExamineAccount "BTCUSDT" false false 0 0 300
        (fun _ => none) PosFetch.raises initialAccountState).1.done = true →
      initialAccountState.pending = [] ∧
      (controllerExamineAccount "BTCUSDT" false false 0 0 300
        (fun _ => none) PosFetch.raises initialAccountState).1.pending = []) ∧
    ((timeoutBranch "BTCUSDT" (fun _ => none)
        initialAccountState).1.pending = initialAccountState.pending) ∧
    ((userCancelBranch "BTCUSDT" (fun _ => none) PosFetch.raises
        initialAccountState).1.pending = initialAccountState.pending) :=
  controller_done_pending_amended "BTCUSDT" false 0 0 300 (fun _ => none)
    PosFetch.raises initialAccountState rfl (by simp [timeoutCond])

/-- Counterexample to C5: the controller's timeout branch fires while the
account is still armed (appending all three placed ids to `canceled`), and
the position monitor later observes the position closed and appends the
pending snapshot again: `"l2"` ends up twice in `canceled`.  Both steps are
reachable in one run — timeout does not stop an armed monitor, and `done`
accounts are merely skipped by the controller. -/
theorem canceled_duplicate_after_timeout_and_close_cex :
    ((positionMonitorTick "BTCUSDT" (PosFetch.ok [])
        (fun _ => some (PyResp.dict (some 0)))
        (controllerExamineAccount "BTCUSDT" false true 3 0 2
          (fun _ => some (PyResp.dict (some 0))) (PosFetch.ok [])
          armedRestingState).1
        true).1.canceled = ["l1", "l2", "l3", "l2", "l3"]) ∧
    ((positionMonitorTick "BTCUSDT" (PosFetch.ok [])
        (fun _ => some (PyResp.dict (some 0)))
        (controllerExamineAccount "BTCUSDT" false true 3 0 2
          (fun _ => some (PyResp.dict (some 0))) (PosFetch.ok [])
          armedRestingState).1
        true).1.canceled.count "l2" = 2) := by
  have htc : timeoutCond true 3 0 2 = true := by norm_num [timeoutCond]
  have h : controllerExamineAccount "BTCUSDT" false true 3 0 2
      (fun _ => some (PyResp.dict (some 0))) (PosFetch.ok [])
      armedRestingState =
      timeoutBranch "BTCUSDT" (fun _ => some (PyResp.dict (some 0)))
        armedRestingState := by
    simp [controllerExamineAccount, htc, armedRestingState,
      initialAccountState]
  rw [h]
  exact ⟨rfl, rfl⟩

/-- C5 (amended): each ClientOrderId appears at most once in `canceled` as
long as only one cancelling branch runs for the account: starting from an
empty `canceled`, a single timeout branch, a single user-cancel branch, or a
single monitor close each produce a duplicate-free `canceled` (given the
duplicate-free `placed` / `pending` the engine maintains); duplication
arises only when a monitor close and a controller branch both run. -/
theorem canceled_nodup_single_branch (symbol : String)
    (o : String → Option PyResp) (pf : PosFetch) (ps : List PosEntry)
    (st : AccountState) (h0 : st.canceled = []) (hp : st.placed.Nodup)
    (hq : st.pending.Nodup) (ha : st.positionArmed = true)
    (hs : parsedSize ps = 0) :
    ((timeoutBranch symbol o st).1.canceled).Nodup ∧
    ((userCancelBranch symbol o pf st).1.canceled).Nodup ∧
    (((positionMonitorTick symbol (PosFetch.ok ps) o st
        true).1.canceled).Nodup) := by
  refine ⟨?_, ?_, ?_⟩
  · simp only [timeoutBranch, cancelLinksLoop_eq]
    simpa [h0] using hp.filter _
  · simp only [userCancelBranch, cancelLinksLoop_eq]
    simpa [h0] using hp.filter _
  · rw [positionMonitorTick_close symbol o st ps ha hs]
    show ((monitorCancelLoop symbol o st st.pending).1.canceled).Nodup
    rw [monitorCancelLoop_canceled]
    simpa [h0] using hq.filter _

/-- Witness for C5 (amended) at the concrete armed resting account. -/
theorem canceled_nodup_single_branch_witness :
    ((timeoutBranch "BTCUSDT" (fun _ => some (PyResp.dict (some 0)))
        armedRestingState).1.canceled).Nodup ∧
    ((userCancelBranch "BTCUSDT" (fun _ => some (PyResp.dict (some 0)))
        (PosFetch.ok []) armedRestingState).1.canceled).Nodup ∧
    (((positionMonitorTick "BTCUSDT" (PosFetch.ok [])
        (fun _ => some (PyResp.dict (some 0))) armedRestingState
        true).1.canceled).Nodup) :=
  canceled_nodup_single_branch "BTCUSDT"
    (fun _ => some (PyResp.dict (some 0))) (PosFetch.ok []) []
    armedRestingState rfl (by decide) (by decide) rfl (by decide)

/-- Counterexample to C7: in the observing state, a positions response whose
first entry has an unparsable `size` field is read as `size = 0.0`, and the
monitor runs the full close transition — it cancels both pending orders and
clears `position_armed` — instead of retrying. -/
theorem monitor_unparsable_size_triggers_close_cex :
    positionMonitorTick "BTCUSDT"
        (PosFetch.ok [{ size := SizeField.unparsable, side := "Buy" }])
        (fun _ => some (PyResp.dict (some 0))) armedRestingState true =
      ({ armedRestingState with
          pending := [], canceled := ["l2", "l3"], positionArmed := false },
       true, true,
       [Request.getPositions, Request.cancelOrder "BTCUSDT" "l2",
        Request.cancelOrder "BTCUSDT" "l3"]) :=
  rfl

/-- C7 (amended): a positions request that raises is caught and the monitor
retries on the next tick with nothing changed; but a response whose
computed size is 0 — including an absent or unparsable size field, or an
empty positions list — does trigger the close transition in the observing
state: the tick terminates and clears `position_armed`. -/
theorem monitor_failed_read_amended (symbol : String)
    (o : String → Option PyResp) (st : AccountState) (waited : Bool)
    (ps : List PosEntry) (ha : st.positionArmed = true)
    (hs : parsedSize ps = 0) :
    (positionMonitorTick symbol PosFetch.raises o st waited =
      (st, waited, false, [Request.getPositions])) ∧
    ((positionMonitorTick symbol (PosFetch.ok ps) o st true).2.2.1 = true) ∧
    ((positionMonitorTick symbol (PosFetch.ok ps) o st
        true).1.positionArmed = false) := by
  refine ⟨?_, ?_, ?_⟩
  · unfold positionMonitorTick
    rw [ha]
    simp
  · rw [positionMonitorTick_close symbol o st ps ha hs]
  · rw [positionMonitorTick_close symbol o st ps ha hs]

/-- Witness for C7 (amended): absent size field on the armed account. -/
theorem monitor_failed_read_amended_witness :
    (positionMonitorTick "BTCUSDT" PosFetch.raises (fun _ => none)
        armedRestingState false =
      (armedRestingState, false, false, [Request.getPositions])) ∧
    ((positionMonitorTick "BTCUSDT"
        (PosFetch.ok [{ size := SizeField.absent, side := "Buy" }])
        (fun _ => none) armedRestingState true).2.2.1 = true) ∧
    ((positionMonitorTick "BTCUSDT"
        (PosFetch.ok [{ size := SizeField.absent, side := "Buy" }])
        (fun _ => none) armedRestingState true).1.positionArmed = false) :=
  monitor_failed_read_amended "BTCUSDT" (fun _ => none) armedRestingState
    false [{ size := SizeField.absent, side := "Buy" }] rfl (by decide)

/-- C8: an account with zero successful placements (empty `placed`, empty
`pending`, not armed), reached by the controller before any cancel request
and before its timeout, is marked `done` with empty `filled` and `canceled`
and both `timeout` and `user_cancel` false; every later controller pass
leaves the done account untouched. -/
theorem zero_placements_account_completes_empty (symbol : String)
    (hasTs : Bool) (now ts maxWait : ℚ) (o : String → Option PyResp)
    (pf : PosFetch) (st : AccountState) (_hplaced : st.placed = [])
    (hpend : st.pending = []) (harmed : st.positionArmed = false)
    (hdone : st.done = false) (hfill : st.filled = [])
    (hcanc : st.canceled = []) (hto : st.timeout = false)
    (huc : st.userCancel = false)
    (htc : timeoutCond hasTs now ts maxWait = false) :
    (controllerExamineAccount symbol false hasTs now ts maxWait o pf st =
      ({ st with done := true }, [])) ∧
    (({ st with done := true } : AccountState).filled = [] ∧
     ({ st with done := true } : AccountState).canceled = [] ∧
     ({ st with done := true } : AccountState).timeout = false ∧
     ({ st with done := true } : AccountState).userCancel = false ∧
     ({ st with done := true } : AccountState).done = true) ∧
    (∀ (cf hasTs2 : Bool) (now2 ts2 mw2 : ℚ) (o2 : String → Option PyResp)
        (pf2 : PosFetch),
      controllerExamineAccount symbol cf hasTs2 now2 ts2 mw2 o2 pf2
          { st with done := true } =
        ({ st with done := true }, [])) := by
  refine ⟨?_, ?_, ?_⟩
  · simp [controllerExamineAccount, hdone, htc, hpend, harmed]
  · simp [hfill, hcanc, hto, huc]
  · intro cf hasTs2 now2 ts2 mw2 o2 pf2
    simp [controllerExamineAccount]

/-- Witness for C8 at the fresh initial account state. -/
theorem zero_placements_account_completes_empty_witness :
    (controllerExamineAccount "BTCUSDT" false false 0 0 300 (fun _ => none)
        PosFetch.raises initialAccountState =
      ({ initialAccountState with done := true }, [])) ∧
    (({ initialAccountState with done := true } : AccountState).filled = [] ∧
     ({ initialAccountState with done := true } : AccountState).canceled = [] ∧
     ({ initialAccountState with done := true } : AccountState).timeout = false ∧
     ({ initialAccountState with done := true } : AccountState).userCancel = false ∧
     ({ initialAccountState with done := true } : AccountState).done = true) ∧
    (∀ (cf hasTs2 : Bool) (now2 ts2 mw2 : ℚ) (o2 : String → Option PyResp)
        (pf2 : PosFetch),
      controllerExamineAccount "BTCUSDT" cf hasTs2 now2 ts2 mw2 o2 pf2
          { initialAccountState with done := true } =
        ({ initialAccountState with done := true }, [])) :=
  zero_placements_account_completes_empty "BTCUSDT" false 0 0 300
    (fun _ => none) PosFetch.raises initialAccountState rfl rfl rfl rfl rfl
    rfl rfl rfl (by simp [timeoutCond])

/-! ### Signature helpers -/

theorem hexDigitChar_lower (n : Nat) (h : n < 16) :
    isLowerHexChar (hexDigitChar n) = true := by
  interval_cases n <;> rfl

theorem hexdigest_chars_lower (d : List (Fin 256)) :
    ((hexdigest d).data.all isLowerHexChar) = true := by
  induction d with
  | nil => rfl
  | cons b bs ih =>
    have h1 : b.val / 16 < 16 := by
      have := b.isLt
      omega
    have h2 : b.val % 16 < 16 := Nat.mod_lt _ (by norm_num)
    simp only [hexdigest, List.map_cons, List.flatten_cons, List.all_append,
      List.all_cons, List.all_nil] at ih ⊢
    simp [hexDigitChar_lower _ h1, hexDigitChar_lower _ h2, ih]

/-- C6: `signed_post` sends exactly the compact JSON serialization it
signed: the request body is `jsonDumps body`; the `X-BAPI-SIGN` header is
the lowercase-hex HMAC-SHA256 digest, under the account's secret, of the
byte string `timestamp_ms ∥ api_key ∥ recv_window_ms ∥ body_json` with the
very same `body_json`; every character of the rendered digest is a
lowercase hex digit; and the serialization uses separators `","` and `":"`
with no whitespace. -/
theorem signed_post_signs_exact_body
    (hmacSha256 : List Nat → List Nat → List (Fin 256))
    (baseUrl apiKey apiSecret path : String) (body : List (String × JVal))
    (recvWindowMs timestampMs : Nat) :
    ((signedPost hmacSha256 baseUrl apiKey apiSecret path body recvWindowMs
        timestampMs).body = jsonDumps body) ∧
    ((signedPost hmacSha256 baseUrl apiKey apiSecret path body recvWindowMs
        timestampMs).headers.lookup "X-BAPI-SIGN" =
      some (hexdigest (hmacSha256 (strBytes apiSecret)
        (strBytes (toString timestampMs ++ apiKey ++
          toString recvWindowMs ++ jsonDumps body))))) ∧
    (∀ d : List (Fin 256), ((hexdigest d).data.all isLowerHexChar) = true) ∧
    (∀ (k1 k2 : String) (v1 v2 : JVal),
      (jsonDumps [(k1, v1), (k2, v2)]).data =
        "\x7b".data ++ (dumpString k1).data ++ ":".data ++
        (dumpJVal v1).data ++ ",".data ++ (dumpString k2).data ++
        ":".data ++ (dumpJVal v2).data ++ "\x7d".data) := by
  refine ⟨rfl, ?_, hexdigest_chars_lower, ?_⟩
  · simp [signedPost, makeSignature, List.lookup]
  · intro k1 k2 v1 v2
    simp [jsonDumps, String.intercalate, String.intercalate.go, String.data_append]

/-- C10: the trigger callback's call of `trade_tcl` in `main.py` passes the
keyword `demotrading`, which is not a parameter of
`trade_tcl(keys_dict, order_dict, tpsl_dict, demo=True,
max_wait_seconds=300)`, so Python argument binding raises `TypeError`
before the engine body runs — whatever requests the engine would have
issued, none are: the invocation returns the binding error for every
`engine`. -/
theorem main_trigger_call_raises_type_error (engine : Unit → List Request) :
    mainTriggerInvocation engine =
      Except.error "got an unexpected keyword argument demotrading" := rfl

end TradeTcl
